import Mathlib

/-!
Verification of the `idevice-app-launcher` wire-protocol client
(`src/src/runApp.ts`, class `IosAppRunnerHelper`), shallowly embedded.

JavaScript strings are sequences of UTF-16 code units; we model them as
`List Nat` of code-unit values (`JSString`).  Pure string helpers
(`makeGdbCommand`, `encodePath`) are translated directly from the source.
The callback-driven handshake of `startAppViaDebugger` is embedded as an
explicit state machine: one record (`DebugSession`) holds the mutable
variables of the closure (`initState`, `endStatus`, `endSignal`, the three
Q deferreds, and the socket's write/end observations), and each socket or
timer callback becomes a transition function.  Q deferreds settle exactly
once (first `resolve`/`reject` wins); `firstSettle` models that.
-/

set_option maxRecDepth 10000

/-- A JavaScript string: a list of UTF-16 code-unit values. -/
abbrev JSString := List Nat

/-- Code units of an ASCII Lean string literal (exact for ASCII). -/
def ascii (s : String) : JSString := s.toList.map Char.toNat

/-- Code-unit value of a digit in JavaScript `Number.prototype.toString`
output after `toUpperCase()`: `0`-`9` then `A`-`F`. -/
def digitChar (n : Nat) : Nat := if n < 10 then 48 + n else 55 + n

/-- Fuel-driven digit expansion of `n` in the given base, most significant
digit first; empty on `n = 0`.  Fuel `n` is always sufficient for `n ≥ 1`. -/
def digitsFuel (base : Nat) : Nat → Nat → JSString
  | 0, _ => []
  | fuel + 1, n =>
    if n = 0 then [] else digitsFuel base fuel (n / base) ++ [digitChar (n % base)]

/-- JavaScript `n.toString(base)` (upper-cased) for a natural number `n`. -/
def jsNatToString (base : Nat) (n : Nat) : JSString :=
  if n = 0 then [48] else digitsFuel base n n

/-- Source `IosAppRunnerHelper.makeGdbCommand` (runApp.ts:244-258): sum the
character codes, reduce mod 256, render as upper-case hex, left-pad a
single-digit checksum with `"0"`, and wrap as `$command#checksum`. -/
def makeGdbCommand (command : JSString) : JSString :=
  let stringSum := (command.foldl (· + ·) 0) % 256
  let checksum := jsNatToString 16 stringSum
  let checksum := if checksum.length < 2 then 48 :: checksum else checksum
  [36] ++ command ++ [35] ++ checksum

/-- The spec's description of the checksum text: the value rendered as
uppercase hexadecimal, left-zero-padded to exactly two digits. -/
def specChecksum2 (n : Nat) : JSString := [digitChar (n / 16), digitChar (n % 16)]

/-- The spec's description of `frame`: `"$" + c + "#" + CC` with `CC` the
two-digit uppercase hex of the character-code sum mod 256. -/
def specFrame (c : JSString) : JSString :=
  [36] ++ c ++ [35] ++ specChecksum2 ((c.foldl (· + ·) 0) % 256)

/-- JavaScript line terminators, which `.` in a regular expression without
the `s` flag does not match: U+000A, U+000D, U+2028, U+2029. -/
def isLineTerminator (c : Nat) : Bool :=
  c == 10 || c == 13 || c == 8232 || c == 8233

/-- JavaScript `s.replace(/./g, f)`: every code unit except line
terminators is replaced by `f` applied to it; line terminators are kept. -/
def jsReplaceDotG (s : JSString) (f : Nat → JSString) : JSString :=
  match s with
  | [] => []
  | c :: rest =>
    (if isLineTerminator c then [c] else f c) ++ jsReplaceDotG rest f

/-- Source `IosAppRunnerHelper.encodePath` (runApp.ts:173-176):
`packagePath.replace(/./g, char => char.charCodeAt(0).toString(16).toUpperCase())`. -/
def encodePath (packagePath : JSString) : JSString :=
  jsReplaceDotG packagePath (fun c => jsNatToString 16 c)

/-- The claim's description of `encodePath`: every character of the input
is mapped to the uppercase hex of its character code, concatenated. -/
def encodePathSpec (p : JSString) : JSString :=
  p.flatMap (fun c => jsNatToString 16 c)

/-- The amended description: characters are hex-encoded, except JavaScript
line terminators, which `/./g` does not match and which pass through. -/
def encodePathSpecAmended (p : JSString) : JSString :=
  p.flatMap (fun c => if isLineTerminator c then [c] else jsNatToString 16 c)

theorem padded_hex_eq_specChecksum2 :
    ∀ n < 256,
      (if (jsNatToString 16 n).length < 2 then 48 :: jsNatToString 16 n
       else jsNatToString 16 n) = specChecksum2 n := by
  decide

/-- **C6.** For every command string `c`, `makeGdbCommand c` is exactly
`"$" ++ c ++ "#" ++ CC` where `CC` is the character-code sum of `c` mod 256
rendered as two-digit, left-zero-padded uppercase hexadecimal. -/
theorem c6_makeGdbCommand_frames (c : JSString) :
    makeGdbCommand c = specFrame c := by
  unfold makeGdbCommand specFrame
  have h : (c.foldl (· + ·) 0) % 256 < 256 :=
    Nat.mod_lt _ (by decide)
  simpa using padded_hex_eq_specChecksum2 _ h

/-- **C7, counterexample.** The claim says `encodePath` hex-encodes *every*
character of its input.  It does not: a linefeed (code 10) is not matched by
the `/./g` regular expression, so `encodePath "\n"` returns `"\n"` unchanged,
while the claimed behavior would produce `"A"`. -/
theorem c7_counterexample :
    encodePath [10] = [10] ∧ encodePathSpec [10] = [65] ∧
      encodePath [10] ≠ encodePathSpec [10] := by
  decide

/-- **C7, amended.** `encodePath` is a pure total function that maps every
character of the input *except JavaScript line terminators* (codes 10, 13,
8232, 8233) to the uppercase hexadecimal of its character code, concatenated
with no separators; line terminators are passed through unchanged. -/
theorem c7_encodePath_amended (p : JSString) :
    encodePath p = encodePathSpecAmended p := by
  induction p with
  | nil => rfl
  | cons c rest ih =>
    simp [encodePath, jsReplaceDotG, encodePathSpecAmended] at ih ⊢
    rw [ih]

/-! ## The handshake session of `startAppViaDebugger` (runApp.ts:69-171) -/

/-- A value a handshake-step deferred is rejected with. -/
inductive Rejection
  /-- The string `"UnableToLaunchApp"` — the spec's `LaunchFailed` kind. -/
  | unableToLaunchApp
  /-- The string `"DeviceLaunchTimeout"` — the spec's `LaunchTimeout` kind. -/
  | deviceLaunchTimeout
  /-- The error object of the socket `error` event (transport error). -/
  | socketError
deriving DecidableEq, Repr

/-- Outcome a Q deferred has settled to. -/
inductive Settled
  /-- `deferred.resolve(socket)`: resolved with the live connection. -/
  | resolvedSocket
  | rejected (r : Rejection)
deriving DecidableEq, Repr

/-- Q deferred settle: the first `resolve`/`reject` wins, later calls are
silently discarded. -/
def firstSettle {α : Type} (d : Option α) (s : α) : Option α :=
  match d with
  | none => some s
  | some x => some x

/-- The closure state of one `startAppViaDebugger` call: its mutable local
variables, the three deferreds, and the observable effects on the socket
(commands written, `+` acknowledgements written, `socket.end()` calls). -/
structure DebugSession where
  initState : Nat
  endStatus : Option Nat
  endSignal : Option Nat
  d1 : Option Settled
  d2 : Option Settled
  d3 : Option Settled
  /-- gdb command frames written to the socket, in order. -/
  cmds : List JSString
  /-- number of `+` acknowledgement characters written to the socket. -/
  acks : Nat
  /-- whether `socket.end()` has been called. -/
  socketEnded : Bool
  /-- whether the `connect` callback has run. -/
  connected : Bool
deriving DecidableEq, Repr

def initSession : DebugSession :=
  { initState := 0, endStatus := none, endSignal := none,
    d1 := none, d2 := none, d3 := none,
    cmds := [], acks := 0, socketEnded := false, connected := false }

/-- `while (data[0] === "+") data = data.substring(1)` (runApp.ts:89). -/
def dropAcks : JSString → JSString
  | [] => []
  | c :: rest => if c == 43 then dropAcks rest else c :: rest

/-- JavaScript `s.substring(a, b)` for `a ≤ b`. -/
def jsSubstring (s : JSString) (a b : Nat) : JSString :=
  (s.drop a).take (b - a)

/-- One hexadecimal digit's value, upper case, lower case or decimal. -/
def hexVal (c : Nat) : Option Nat :=
  if 48 ≤ c ∧ c ≤ 57 then some (c - 48)
  else if 65 ≤ c ∧ c ≤ 70 then some (c - 55)
  else if 97 ≤ c ∧ c ≤ 102 then some (c - 87)
  else none

def parseHexAux : JSString → Nat → Nat
  | [], acc => acc
  | c :: rest, acc =>
    match hexVal c with
    | some v => parseHexAux rest (acc * 16 + v)
    | none => acc

/-- JavaScript `parseInt(s, 16)` on frame text: the longest hex-digit
prefix, `none` for `NaN` when the first character is not a hex digit. -/
def jsParseIntHex (s : JSString) : Option Nat :=
  match s with
  | [] => none
  | c :: rest =>
    match hexVal c with
    | some v => some (parseHexAux rest v)
    | none => none

/-- `makeGdbCommand("Hc0")`, sent by step 1's `.then` (runApp.ts:154). -/
def hc0Command : JSString := makeGdbCommand (ascii ("Hc0"))

/-- `makeGdbCommand("c")`, sent by step 2's `.then` (runApp.ts:163). -/
def continueCommand : JSString := makeGdbCommand (ascii ("c"))

/-- `makeGdbCommand("A" + encodedPath.length + ",0," + encodedPath)`,
sent by the `connect` callback (runApp.ts:144). -/
def launchCommand (path : JSString) : JSString :=
  makeGdbCommand
    ([65] ++ jsNatToString 10 (encodePath path).length ++ [44, 48, 44] ++ encodePath path)

/-- The three handshake commands in the order the code sends them. -/
def allCommands (path : JSString) : List JSString :=
  [launchCommand path, hc0Command, continueCommand]

/-- `deferred1.resolve(socket)` together with its `.then` continuation
(runApp.ts:152-160): when deferred 1 is still pending it resolves with the
socket and the continuation writes `Hc0` and increments `initState`; when
deferred 1 is already settled nothing happens. -/
def resolveStep1 (st : DebugSession) : DebugSession :=
  match st.d1 with
  | some _ => st
  | none =>
    { st with d1 := some .resolvedSocket, initState := st.initState + 1,
              cmds := st.cmds ++ [hc0Command] }

/-- `deferred2.resolve(socket)` together with its `.then` continuation
(runApp.ts:161-169): writes `c` and increments `initState`. -/
def resolveStep2 (st : DebugSession) : DebugSession :=
  match st.d2 with
  | some _ => st
  | none =>
    { st with d2 := some .resolvedSocket, initState := st.initState + 1,
              cmds := st.cmds ++ [continueCommand] }

/-- Reject all three deferreds (each a no-op if already settled). -/
def rejectAll (st : DebugSession) (r : Rejection) : DebugSession :=
  { st with d1 := firstSettle st.d1 (.rejected r),
            d2 := firstSettle st.d2 (.rejected r),
            d3 := firstSettle st.d3 (.rejected r) }

/-- The `data` callback (runApp.ts:87-128), translated branch for branch:
strip leading `+`, and if the rest starts with `$`, acknowledge with `+`
and dispatch on the reply marker in source order `W, X, T, OK, O, E`. -/
def handleData (st : DebugSession) (raw : JSString) : DebugSession :=
  let data := dropAcks raw
  if data[0]? == some 36 then
    let st := { st with acks := st.acks + 1 }
    if data[1]? == some 87 then
      { st with endStatus := jsParseIntHex (jsSubstring data 2 4), socketEnded := true }
    else if data[1]? == some 88 then
      { st with endSignal := jsParseIntHex (jsSubstring data 2 4), socketEnded := true }
    else if data[1]? == some 84 then
      { st with socketEnded := true }
    else if jsSubstring data 1 3 == [79, 75] then
      if st.initState == 1 then resolveStep1 st
      else if st.initState == 2 then resolveStep2 st
      else st
    else if data[1]? == some 79 then
      if st.initState == 3 then
        { st with d3 := firstSettle st.d3 .resolvedSocket, initState := st.initState + 1 }
      else st
    else if data[1]? == some 69 then
      rejectAll st .unableToLaunchApp
    else st
  else st

/-- The `end` callback (runApp.ts:130-134). -/
def handleEnd (st : DebugSession) : DebugSession :=
  rejectAll st .unableToLaunchApp

/-- The `error` callback (runApp.ts:136-140). -/
def handleError (st : DebugSession) : DebugSession :=
  rejectAll st .socketError

/-- The `connect` callback (runApp.ts:142-150): write the launch-argument
command and increment `initState`.  `net` fires `connect` once; the flag
keeps replays inert. -/
def handleConnect (path : JSString) (st : DebugSession) : DebugSession :=
  if st.connected then st
  else
    { st with connected := true, initState := st.initState + 1,
              cmds := st.cmds ++ [launchCommand path] }

/-- The asynchronous events that can reach the session's closure. -/
inductive SessionEvent
  | connected
  | data (chunk : JSString)
  | connEnd
  | connError
  /-- step `n`'s `setTimeout` callback fires; it exists only once the
  step's command has been written, which arms the timer. -/
  | timeout1
  | timeout2
  | timeout3
deriving DecidableEq, Repr

/-- Dispatch one event.  A step's timer can only fire after that step's
command was written (the `setTimeout` is registered at the write). -/
def step (path : JSString) (st : DebugSession) : SessionEvent → DebugSession
  | .connected => handleConnect path st
  | .data chunk => handleData st chunk
  | .connEnd => handleEnd st
  | .connError => handleError st
  | .timeout1 =>
    if 1 ≤ st.cmds.length then
      { st with d1 := firstSettle st.d1 (.rejected .deviceLaunchTimeout) }
    else st
  | .timeout2 =>
    if 2 ≤ st.cmds.length then
      { st with d2 := firstSettle st.d2 (.rejected .deviceLaunchTimeout) }
    else st
  | .timeout3 =>
    if 3 ≤ st.cmds.length then
      { st with d3 := firstSettle st.d3 (.rejected .deviceLaunchTimeout) }
    else st

/-- Run the session closure over a sequence of events. -/
def runSession (path : JSString) (evs : List SessionEvent) : DebugSession :=
  evs.foldl (step path) initSession

/-- State of the promise returned by `startAppViaDebugger`: the chain
`deferred1.promise.then(...).then(...)` (runApp.ts:152-170). -/
inductive PromiseState
  | pending
  | resolvedSocket
  | rejected (r : Rejection)
deriving DecidableEq, Repr

def overall (st : DebugSession) : PromiseState :=
  match st.d1 with
  | none => .pending
  | some (.rejected r) => .rejected r
  | some .resolvedSocket =>
    match st.d2 with
    | none => .pending
    | some (.rejected r) => .rejected r
    | some .resolvedSocket =>
      match st.d3 with
      | none => .pending
      | some (.rejected r) => .rejected r
      | some .resolvedSocket => .resolvedSocket

/-- The reply frame `$OK#9A`. -/
def okFrame : JSString := ascii ("$OK#9A")

/-- The output reply frame `$O#4F` (empty program output). -/
def oFrame : JSString := ascii ("$O#4F")

/-- A run of `k` acknowledgement characters `+`. -/
def plusses (k : Nat) : JSString := List.replicate k 43

theorem dropAcks_plusses (k : Nat) (l : JSString) :
    dropAcks (plusses k ++ l) = dropAcks l := by
  induction k with
  | zero => simp [plusses]
  | succ n ih => simpa [plusses, List.replicate, dropAcks] using ih

theorem handleData_plusses (st : DebugSession) (k : Nat) (raw : JSString) :
    handleData st (plusses k ++ raw) = handleData st raw := by
  unfold handleData
  rw [dropAcks_plusses]

/-- **C1.** A peer that answers the launch-argument command with a complete
OK frame, `Hc0` with a complete OK frame, and `c` with a complete O frame —
each optionally preceded by any number of `+` acknowledgement characters —
makes the returned promise resolve with the live connection and drives
`initState` to 4, the Monitoring state; and step 3 is resolved by the first
O frame in that state, not by a bare OK frame, which leaves the promise
pending. -/
theorem c1_happy_path_resolves (path : JSString) (k1 k2 k3 : Nat) :
    (overall (runSession path
        [.connected, .data (plusses k1 ++ okFrame), .data (plusses k2 ++ okFrame),
         .data (plusses k3 ++ oFrame)]) = .resolvedSocket
      ∧ (runSession path
        [.connected, .data (plusses k1 ++ okFrame), .data (plusses k2 ++ okFrame),
         .data (plusses k3 ++ oFrame)]).initState = 4)
    ∧ overall (runSession path
        [.connected, .data (plusses k1 ++ okFrame), .data (plusses k2 ++ okFrame),
         .data (plusses k3 ++ okFrame)]) = .pending := by
  simp only [runSession, List.foldl, step, handleData_plusses]
  exact ⟨⟨rfl, rfl⟩, rfl⟩

/-! ## Reachability invariant of the handshake -/

/-- Invariant tying `initState` to the commands written and the deferreds:
commands are a prefix of the serialized three-command sequence, the second
command exists exactly when step 1 resolved successfully, and the third
exactly when step 2 resolved successfully. -/
def SessionInv (path : JSString) (st : DebugSession) : Prop :=
  st.initState ≤ 4 ∧
  st.cmds = (allCommands path).take (min st.initState 3) ∧
  (st.connected ↔ 1 ≤ st.initState) ∧
  (st.d1 = some .resolvedSocket ↔ 2 ≤ st.initState) ∧
  (st.d2 = some .resolvedSocket ↔ 3 ≤ st.initState) ∧
  (st.d3 = some .resolvedSocket → st.initState = 4)

theorem firstSettle_rejected_ne (d : Option Settled) (r : Rejection) :
    (firstSettle d (.rejected r) = some .resolvedSocket) ↔ d = some .resolvedSocket := by
  cases d <;> simp [firstSettle]

theorem sessionInv_rejectAll (path : JSString) (st : DebugSession) (r : Rejection)
    (h : SessionInv path st) : SessionInv path (rejectAll st r) := by
  obtain ⟨h0, hc, hcon, h1, h2, h3⟩ := h
  refine ⟨h0, hc, hcon, ?_, ?_, ?_⟩
  · simpa [rejectAll, firstSettle_rejected_ne] using h1
  · simpa [rejectAll, firstSettle_rejected_ne] using h2
  · intro hd
    exact h3 (by simpa [rejectAll, firstSettle_rejected_ne] using hd)

theorem sessionInv_handleConnect (path : JSString) (st : DebugSession)
    (h : SessionInv path st) : SessionInv path (handleConnect path st) := by
  obtain ⟨h0, hc, hcon, h1, h2, h3⟩ := h
  unfold handleConnect
  split
  · exact ⟨h0, hc, hcon, h1, h2, h3⟩
  · rename_i hcn
    have h00 : st.initState = 0 := by
      by_contra hne
      exact hcn (hcon.mpr (Nat.one_le_iff_ne_zero.mpr hne))
    refine ⟨?_, ?_, ?_, ?_, ?_, ?_⟩ <;> dsimp only
    · omega
    · rw [hc, h00]
      simp [allCommands]
    · simp
    · simp only [h1]
      omega
    · simp only [h2]
      omega
    · intro hd
      have := h3 hd
      omega

theorem sessionInv_handleEnd (path : JSString) (st : DebugSession)
    (h : SessionInv path st) : SessionInv path (handleEnd st) :=
  sessionInv_rejectAll path st _ h

theorem sessionInv_handleError (path : JSString) (st : DebugSession)
    (h : SessionInv path st) : SessionInv path (handleError st) :=
  sessionInv_rejectAll path st _ h

theorem sessionInv_handleData (path : JSString) (st : DebugSession) (raw : JSString)
    (h : SessionInv path st) : SessionInv path (handleData st raw) := by
  obtain ⟨h0, hc, hcon, h1, h2, h3⟩ := h
  unfold handleData
  dsimp only
  split
  case isFalse => exact ⟨h0, hc, hcon, h1, h2, h3⟩
  case isTrue =>
    split
    case isTrue => exact ⟨h0, hc, hcon, h1, h2, h3⟩
    case isFalse =>
      split
      case isTrue => exact ⟨h0, hc, hcon, h1, h2, h3⟩
      case isFalse =>
        split
        case isTrue => exact ⟨h0, hc, hcon, h1, h2, h3⟩
        case isFalse =>
          split
          case isTrue =>
            -- the OK branch
            split
            case isTrue hi1 =>
              have hi1' : st.initState = 1 := by simpa using hi1
              unfold resolveStep1
              dsimp only
              split
              case h_1 => exact ⟨h0, hc, hcon, h1, h2, h3⟩
              case h_2 hd1 =>
                refine ⟨?_, ?_, ?_, ?_, ?_, ?_⟩ <;> dsimp only
                · omega
                · rw [hc, hi1']
                  simp [allCommands]
                · simp only [hcon]
                  omega
                · simp [hi1']
                · simp only [h2]
                  omega
                · intro hd
                  have := h3 hd
                  omega
            case isFalse =>
              split
              case isTrue hi2 =>
                have hi2' : st.initState = 2 := by simpa using hi2
                unfold resolveStep2
                dsimp only
                split
                case h_1 => exact ⟨h0, hc, hcon, h1, h2, h3⟩
                case h_2 hd2 =>
                  refine ⟨?_, ?_, ?_, ?_, ?_, ?_⟩ <;> dsimp only
                  · omega
                  · rw [hc, hi2']
                    simp [allCommands]
                  · simp only [hcon]
                    omega
                  · simp only [h1]
                    omega
                  · simp [hi2']
                  · intro hd
                    have := h3 hd
                    omega
              case isFalse => exact ⟨h0, hc, hcon, h1, h2, h3⟩
          case isFalse =>
            split
            case isTrue =>
              -- the O branch
              split
              case isTrue hi3 =>
                have hi3' : st.initState = 3 := by simpa using hi3
                refine ⟨?_, ?_, ?_, ?_, ?_, ?_⟩ <;> dsimp only
                · omega
                · rw [hc, hi3']
                  rfl
                · simp only [hcon]
                  omega
                · simp only [h1]
                  omega
                · simp only [h2]
                  omega
                · intro _
                  omega
              case isFalse => exact ⟨h0, hc, hcon, h1, h2, h3⟩
            case isFalse =>
              split
              case isTrue =>
                exact sessionInv_rejectAll path _ _ ⟨h0, hc, hcon, h1, h2, h3⟩
              case isFalse => exact ⟨h0, hc, hcon, h1, h2, h3⟩

theorem sessionInv_step (path : JSString) (st : DebugSession) (e : SessionEvent)
    (h : SessionInv path st) : SessionInv path (step path st e) := by
  obtain ⟨h0, hc, hcon, h1, h2, h3⟩ := h
  cases e with
  | connected => exact sessionInv_handleConnect path st ⟨h0, hc, hcon, h1, h2, h3⟩
  | data chunk => exact sessionInv_handleData path st chunk ⟨h0, hc, hcon, h1, h2, h3⟩
  | connEnd => exact sessionInv_handleEnd path st ⟨h0, hc, hcon, h1, h2, h3⟩
  | connError => exact sessionInv_handleError path st ⟨h0, hc, hcon, h1, h2, h3⟩
  | timeout1 =>
    simp only [step]
    split
    · refine ⟨h0, hc, hcon, ?_, h2, h3⟩
      simpa [firstSettle_rejected_ne] using h1
    · exact ⟨h0, hc, hcon, h1, h2, h3⟩
  | timeout2 =>
    simp only [step]
    split
    · refine ⟨h0, hc, hcon, h1, ?_, h3⟩
      simpa [firstSettle_rejected_ne] using h2
    · exact ⟨h0, hc, hcon, h1, h2, h3⟩
  | timeout3 =>
    simp only [step]
    split
    · refine ⟨h0, hc, hcon, h1, h2, ?_⟩
      intro hd
      exact h3 (by simpa [firstSettle_rejected_ne] using hd)
    · exact ⟨h0, hc, hcon, h1, h2, h3⟩

theorem sessionInv_initSession (path : JSString) : SessionInv path initSession := by
  refine ⟨by simp [initSession], by simp [initSession], ?_, ?_, ?_, ?_⟩ <;>
    simp [initSession]

theorem sessionInv_runSession (path : JSString) (evs : List SessionEvent) :
    SessionInv path (runSession path evs) := by
  have hgen : ∀ (l : List SessionEvent) (st : DebugSession), SessionInv path st →
      SessionInv path (l.foldl (step path) st) := by
    intro l
    induction l with
    | nil => exact fun st h => h
    | cons e rest ih =>
      intro st h
      exact ih _ (sessionInv_step path st e h)
  exact hgen evs initSession (sessionInv_initSession path)

/-- **C2.** In every reachable state of the handshake, the commands written
to the socket form a prefix of the strictly serialized sequence
launch-argument, `Hc0`, `c`; the second command has been written only if
step 1's (single) expectation resolved successfully, and the third only if
step 2's resolved successfully.  (Each step has exactly one expectation:
one `Option Settled` cell of the session state, settled at most once.) -/
theorem c2_commands_serialized (path : JSString) (evs : List SessionEvent) :
    (runSession path evs).cmds.length ≤ 3
      ∧ (runSession path evs).cmds =
          (allCommands path).take ((runSession path evs).cmds.length)
      ∧ (2 ≤ (runSession path evs).cmds.length →
          (runSession path evs).d1 = some .resolvedSocket)
      ∧ (3 ≤ (runSession path evs).cmds.length →
          (runSession path evs).d2 = some .resolvedSocket) := by
  obtain ⟨h0, hc, hcon, h1, h2, h3⟩ := sessionInv_runSession path evs
  have hlen : (runSession path evs).cmds.length = min (runSession path evs).initState 3 := by
    rw [hc]
    simp [allCommands]
  refine ⟨by omega, ?_, ?_, ?_⟩
  · rw [hlen, hc]
  · intro hge
    exact h1.mpr (by omega)
  · intro hge
    exact h2.mpr (by omega)

/-! ## Error frames, timeouts, idempotence -/

theorem firstSettle_of_none {α : Type} {d : Option α} (s : α) (h : d = none) :
    firstSettle d s = some s := by
  rw [h]
  rfl

theorem firstSettle_of_some {α : Type} {d : Option α} (s x : α) (h : d = some x) :
    firstSettle d s = some x := by
  rw [h]
  rfl

/-- **C3.** While any handshake step is awaited, a complete `E` reply frame
(the reassembled data starts with `$E` after stripping `+`s) rejects every
still-pending step expectation with `"UnableToLaunchApp"` (the `LaunchFailed`
kind), leaves already-settled expectations untouched, does not call
`socket.end()`, and writes no command: the caller is left to close the
connection. -/
theorem c3_error_frame_rejects (st : DebugSession) (chunk rest : JSString)
    (h : dropAcks chunk = 36 :: 69 :: rest) :
    (st.d1 = none → (handleData st chunk).d1 = some (.rejected .unableToLaunchApp))
    ∧ (∀ x, st.d1 = some x → (handleData st chunk).d1 = some x)
    ∧ (st.d2 = none → (handleData st chunk).d2 = some (.rejected .unableToLaunchApp))
    ∧ (∀ x, st.d2 = some x → (handleData st chunk).d2 = some x)
    ∧ (st.d3 = none → (handleData st chunk).d3 = some (.rejected .unableToLaunchApp))
    ∧ (∀ x, st.d3 = some x → (handleData st chunk).d3 = some x)
    ∧ (handleData st chunk).socketEnded = st.socketEnded
    ∧ (handleData st chunk).cmds = st.cmds := by
  simp only [handleData, h]
  simp [jsSubstring, rejectAll]
  refine ⟨fun hd => firstSettle_of_none _ hd, fun x hd => firstSettle_of_some _ x hd,
          fun hd => firstSettle_of_none _ hd, fun x hd => firstSettle_of_some _ x hd,
          fun hd => firstSettle_of_none _ hd, fun x hd => firstSettle_of_some _ x hd⟩

/-- **C3 witness.** After the launch-argument step has resolved, the error
frame `$E23#AA` rejects the still-pending step 2 with `LaunchFailed` and
does not end the socket. -/
theorem c3_error_frame_rejects_witness :
    (handleData (runSession [97] [.connected, .data okFrame]) (ascii ("$E23#AA"))).d2
        = some (.rejected .unableToLaunchApp)
      ∧ (handleData (runSession [97] [.connected, .data okFrame]) (ascii ("$E23#AA"))).socketEnded
        = false := by
  obtain ⟨-, -, h2, -, -, -, hend, -⟩ :=
    c3_error_frame_rejects (runSession [97] [.connected, .data okFrame])
      (ascii ("$E23#AA")) [50, 51, 35, 65, 65] (by decide)
  refine ⟨h2 (by decide), hend.trans (by decide)⟩

/-- **C4.** If step `N`'s timer fires (it is armed once command `N` has been
written) while step `N`'s expectation is still pending, that expectation is
rejected with `"DeviceLaunchTimeout"` (the `LaunchTimeout` kind); the other
steps' expectations — in particular the earlier, already-resolved ones —
are untouched, no command is written, and the socket is not ended. -/
theorem c4_timeout_rejects_only_that_step (path : JSString) (st : DebugSession) :
    (1 ≤ st.cmds.length → st.d1 = none →
      (step path st .timeout1).d1 = some (.rejected .deviceLaunchTimeout)
        ∧ (step path st .timeout1).d2 = st.d2
        ∧ (step path st .timeout1).d3 = st.d3
        ∧ (step path st .timeout1).socketEnded = st.socketEnded
        ∧ (step path st .timeout1).cmds = st.cmds)
    ∧ (2 ≤ st.cmds.length → st.d2 = none →
      (step path st .timeout2).d2 = some (.rejected .deviceLaunchTimeout)
        ∧ (step path st .timeout2).d1 = st.d1
        ∧ (step path st .timeout2).d3 = st.d3
        ∧ (step path st .timeout2).socketEnded = st.socketEnded
        ∧ (step path st .timeout2).cmds = st.cmds)
    ∧ (3 ≤ st.cmds.length → st.d3 = none →
      (step path st .timeout3).d3 = some (.rejected .deviceLaunchTimeout)
        ∧ (step path st .timeout3).d1 = st.d1
        ∧ (step path st .timeout3).d2 = st.d2
        ∧ (step path st .timeout3).socketEnded = st.socketEnded
        ∧ (step path st .timeout3).cmds = st.cmds) := by
  refine ⟨?_, ?_, ?_⟩ <;> intro hlen hd <;>
    simp [step, hlen, hd, firstSettle]

/-- **C4 witness.** With steps 1 resolved and step 2 pending, step 2's timer
rejects step 2 with `LaunchTimeout` while step 1 stays resolved. -/
theorem c4_timeout_witness :
    (step [97] (runSession [97] [.connected, .data okFrame]) .timeout2).d2
        = some (.rejected .deviceLaunchTimeout)
      ∧ (step [97] (runSession [97] [.connected, .data okFrame]) .timeout2).d1
        = some .resolvedSocket := by
  obtain ⟨-, h, -⟩ :=
    c4_timeout_rejects_only_that_step [97] (runSession [97] [.connected, .data okFrame])
  obtain ⟨hrej, hd1, -⟩ := h (by decide) (by decide)
  exact ⟨hrej, hd1.trans (by decide)⟩

theorem resolveStep1_d1_mono (st : DebugSession) (s : Settled) (hs : st.d1 = some s) :
    (resolveStep1 st).d1 = some s := by
  unfold resolveStep1
  split
  · exact hs
  · rename_i heq
    rw [heq] at hs
    exact Option.noConfusion hs

theorem resolveStep2_d2_mono (st : DebugSession) (s : Settled) (hs : st.d2 = some s) :
    (resolveStep2 st).d2 = some s := by
  unfold resolveStep2
  split
  · exact hs
  · rename_i heq
    rw [heq] at hs
    exact Option.noConfusion hs

theorem resolveStep1_d2 (st : DebugSession) : (resolveStep1 st).d2 = st.d2 := by
  unfold resolveStep1
  split <;> rfl

theorem resolveStep1_d3 (st : DebugSession) : (resolveStep1 st).d3 = st.d3 := by
  unfold resolveStep1
  split <;> rfl

theorem resolveStep2_d1 (st : DebugSession) : (resolveStep2 st).d1 = st.d1 := by
  unfold resolveStep2
  split <;> rfl

theorem resolveStep2_d3 (st : DebugSession) : (resolveStep2 st).d3 = st.d3 := by
  unfold resolveStep2
  split <;> rfl

theorem handleData_d1_mono (st : DebugSession) (raw : JSString) (s : Settled)
    (hs : st.d1 = some s) : (handleData st raw).d1 = some s := by
  unfold handleData
  dsimp only
  repeat' split
  all_goals first
    | exact hs
    | exact resolveStep1_d1_mono _ s hs
    | exact (resolveStep2_d1 _).trans hs
    | exact firstSettle_of_some _ s hs

theorem handleData_d2_mono (st : DebugSession) (raw : JSString) (s : Settled)
    (hs : st.d2 = some s) : (handleData st raw).d2 = some s := by
  unfold handleData
  dsimp only
  repeat' split
  all_goals first
    | exact hs
    | exact resolveStep2_d2_mono _ s hs
    | exact (resolveStep1_d2 _).trans hs
    | exact firstSettle_of_some _ s hs

theorem handleData_d3_mono (st : DebugSession) (raw : JSString) (s : Settled)
    (hs : st.d3 = some s) : (handleData st raw).d3 = some s := by
  unfold handleData
  dsimp only
  repeat' split
  all_goals first
    | exact hs
    | exact (resolveStep1_d3 _).trans hs
    | exact (resolveStep2_d3 _).trans hs
    | exact firstSettle_of_some _ s hs

theorem foldl_firstSettle_some {α : Type} (a : α) (l : List α) :
    l.foldl firstSettle (some a) = some a := by
  induction l with
  | nil => rfl
  | cons x rest ih => simpa [firstSettle] using ih

/-- **C5.** First resolution wins, later attempts are silent no-ops: (i) once
a step's expectation is settled, no further session event — reply frame,
error frame, connection end, connection error, or timeout — changes its
outcome; (ii) over any cell, a sequence of settle attempts yields exactly
the first attempt's value, all later attempts being discarded. -/
theorem c5_first_resolution_wins (path : JSString) (st : DebugSession)
    (e : SessionEvent) (s : Settled) :
    ((st.d1 = some s → (step path st e).d1 = some s)
      ∧ (st.d2 = some s → (step path st e).d2 = some s)
      ∧ (st.d3 = some s → (step path st e).d3 = some s))
    ∧ (∀ (a : Settled) (attempts : List Settled),
        attempts.foldl firstSettle (some a) = some a)
    ∧ (∀ (a : Settled) (attempts : List Settled),
        (a :: attempts).foldl firstSettle none = some a) := by
  refine ⟨?_, fun a attempts => foldl_firstSettle_some a attempts,
          fun a attempts => foldl_firstSettle_some a attempts⟩
  cases e with
  | connected =>
    refine ⟨?_, ?_, ?_⟩ <;> intro hs <;>
      (simp only [step]; unfold handleConnect; split <;> exact hs)
  | data chunk =>
    exact ⟨handleData_d1_mono st chunk s, handleData_d2_mono st chunk s,
           handleData_d3_mono st chunk s⟩
  | connEnd =>
    exact ⟨fun hs => firstSettle_of_some _ s hs, fun hs => firstSettle_of_some _ s hs,
           fun hs => firstSettle_of_some _ s hs⟩
  | connError =>
    exact ⟨fun hs => firstSettle_of_some _ s hs, fun hs => firstSettle_of_some _ s hs,
           fun hs => firstSettle_of_some _ s hs⟩
  | timeout1 =>
    refine ⟨?_, ?_, ?_⟩ <;> intro hs <;>
      (simp only [step]; split
       · first | exact firstSettle_of_some _ s hs | exact hs
       · exact hs)
  | timeout2 =>
    refine ⟨?_, ?_, ?_⟩ <;> intro hs <;>
      (simp only [step]; split
       · first | exact firstSettle_of_some _ s hs | exact hs
       · exact hs)
  | timeout3 =>
    refine ⟨?_, ?_, ?_⟩ <;> intro hs <;>
      (simp only [step]; split
       · first | exact firstSettle_of_some _ s hs | exact hs
       · exact hs)

/-- **C5 witness.** Step 1 has resolved with the socket; its timer then
fires late, and the outcome is unchanged. -/
theorem c5_first_resolution_wins_witness :
    (step [97] (runSession [97] [.connected, .data okFrame]) .timeout1).d1
      = some .resolvedSocket :=
  (c5_first_resolution_wins [97] (runSession [97] [.connected, .data okFrame])
      .timeout1 .resolvedSocket).1.1 (by decide)

/-- **C10.** A complete `W` (exited normally), `X` (exited via signal) or
`T` (stopped) frame calls `socket.end()` in *every* handshake state — the
`data` handler checks these markers before anything else, with no condition
on `initState` — and leaves the step expectations as they were; the
connection `end` event this provokes then rejects every still-unresolved
step expectation with `"UnableToLaunchApp"` (the `LaunchFailed` kind). -/
theorem c10_wxt_ends_connection (st : DebugSession) (chunk rest : JSString) (m : Nat)
    (h : dropAcks chunk = 36 :: m :: rest) (hm : m = 87 ∨ m = 88 ∨ m = 84) :
    (handleData st chunk).socketEnded = true
    ∧ (handleData st chunk).d1 = st.d1
    ∧ (handleData st chunk).d2 = st.d2
    ∧ (handleData st chunk).d3 = st.d3
    ∧ (st.d1 = none →
        (handleEnd (handleData st chunk)).d1 = some (.rejected .unableToLaunchApp))
    ∧ (st.d2 = none →
        (handleEnd (handleData st chunk)).d2 = some (.rejected .unableToLaunchApp))
    ∧ (st.d3 = none →
        (handleEnd (handleData st chunk)).d3 = some (.rejected .unableToLaunchApp)) := by
  rcases hm with hm | hm | hm <;> subst hm <;>
    (simp only [handleData, h]
     simp [handleEnd, rejectAll]
     exact ⟨fun hd => firstSettle_of_none _ hd, fun hd => firstSettle_of_none _ hd,
            fun hd => firstSettle_of_none _ hd⟩)

/-- **C10 witness.** The stop frame `$T91#00` arriving with every step still
pending ends the socket, and the resulting `end` event rejects step 1 with
`LaunchFailed`. -/
theorem c10_wxt_ends_connection_witness :
    (handleData initSession (ascii ("$T91#00"))).socketEnded = true
      ∧ (handleEnd (handleData initSession (ascii ("$T91#00")))).d1
        = some (.rejected .unableToLaunchApp) := by
  obtain ⟨hend, -, -, -, h1, -, -⟩ :=
    c10_wxt_ends_connection initSession (ascii ("$T91#00")) [57, 49, 35, 48, 48] 84
      (by decide) (Or.inr (Or.inr rfl))
  exact ⟨hend, h1 (by decide)⟩

/-! ## `mountDeveloperImage` (runApp.ts:178-205) -/

/-- JavaScript `s.indexOf(sub) !== -1`: `sub` occurs as a contiguous
substring of `s`. -/
def containsSub (s sub : JSString) : Bool :=
  match s with
  | [] => sub.isEmpty
  | c :: rest => sub.isPrefixOf (c :: rest) || containsSub rest sub

/-- Settlement of the `mountDeveloperImage` deferred. -/
inductive MountResult
  /-- `deferred.resolve({})`. -/
  | resolvedOk
  /-- `deferred.reject(new Error("NoDeviceAttached"))`. -/
  | noDeviceAttached
  /-- `deferred.reject(new Error("ErrorMountingDiskImage"))`. -/
  | errorMountingDiskImage
deriving DecidableEq, Repr

/-- `"Error:"`. -/
def errorColonMsg : JSString := ascii ("Error:")

/-- `"No device found, is it plugged in?"`. -/
def noDeviceMsg : JSString := ascii ("No device found, is it plugged in?")

/-- The `ideviceimagemounter` `close` handler (runApp.ts:187-199), acting on
the mount deferred `d` given the accumulated stdout and the exit code.
Translated statement for statement: on a nonzero code the handler resolves
when stdout contains `"Error:"`, else rejects `NoDeviceAttached` when stdout
contains the no-device message, and then — with no intervening `else` in the
source — unconditionally attempts `deferred.reject(ErrorMountingDiskImage)`;
a zero code resolves. -/
def mounterOnClose (stdoutAcc : JSString) (code : Int) (d : Option MountResult) :
    Option MountResult :=
  if code ≠ 0 then
    let d1 :=
      if containsSub stdoutAcc errorColonMsg then firstSettle d .resolvedOk
      else if containsSub stdoutAcc noDeviceMsg then firstSettle d .noDeviceAttached
      else d
    firstSettle d1 .errorMountingDiskImage
  else firstSettle d .resolvedOk

/-- **C8.** When the image-mount utility exits nonzero with the deferred
still pending, the promise resolves successfully exactly when the
accumulated stdout contains the literal substring `"Error:"` (the benign
"already mounted" heuristic, thanks to first-settle-wins swallowing the
unconditional trailing reject); otherwise it rejects `NoDeviceAttached` when
stdout contains `"No device found, is it plugged in?"`, and rejects
`ErrorMountingDiskImage` in every remaining case. -/
theorem c8_mount_nonzero_exit (stdoutAcc : JSString) (code : Int) (h : code ≠ 0) :
    mounterOnClose stdoutAcc code none =
      (if containsSub stdoutAcc errorColonMsg then some MountResult.resolvedOk
       else if containsSub stdoutAcc noDeviceMsg then some MountResult.noDeviceAttached
       else some MountResult.errorMountingDiskImage) := by
  unfold mounterOnClose
  rw [if_pos h]
  by_cases h1 : containsSub stdoutAcc errorColonMsg
  · simp [h1, firstSettle]
  · by_cases h2 : containsSub stdoutAcc noDeviceMsg
    · simp [h1, h2, firstSettle]
    · simp [h1, h2, firstSettle]

/-- **C8 witness.** Exit code 1 with stdout containing `"Error:"` resolves
(benign); with the no-device message it rejects `NoDeviceAttached`; with
unrelated stdout it rejects `ErrorMountingDiskImage`. -/
theorem c8_mount_nonzero_exit_witness :
    mounterOnClose (ascii ("Mount Error: already mounted")) 1 none
        = some MountResult.resolvedOk
      ∧ mounterOnClose (ascii ("No device found, is it plugged in?")) 1 none
        = some MountResult.noDeviceAttached
      ∧ mounterOnClose (ascii ("mount failed")) 1 none
        = some MountResult.errorMountingDiskImage := by
  refine ⟨?_, ?_, ?_⟩ <;>
    rw [c8_mount_nonzero_exit _ 1 (by decide)] <;> decide

/-! ## `startDebugProxy` (runApp.ts:18-35) -/

/-- Settlement of the `startDebugProxy` deferred. -/
inductive ProxyOutcome
  /-- `deferred.resolve(SharedState.nativeDebuggerProxyInstance)`: resolved
  with the proxy handle stored in the process-wide shared state. -/
  | resolvedStoredHandle
  /-- `deferred.reject(err)` from the spawn `error` event — the spec's
  `ProxySpawnFailed` kind. -/
  | proxySpawnFailed
deriving DecidableEq, Repr

/-- The two asynchronous continuations racing for the `startDebugProxy`
deferred: the `once("error")` handler of the freshly spawned proxy process,
and the `Q.delay(200)` continuation that resolves with the stored handle.
An error event ordered before the delay elapses is an error "within the
~200ms grace window". -/
inductive ProxyEvent
  | spawnError
  | delayElapsed
deriving DecidableEq, Repr

def proxyStep (d : Option ProxyOutcome) : ProxyEvent → Option ProxyOutcome
  | .spawnError => firstSettle d .proxySpawnFailed
  | .delayElapsed => firstSettle d .resolvedStoredHandle

theorem foldl_proxyStep_some (x : ProxyOutcome) (evs : List ProxyEvent) :
    evs.foldl proxyStep (some x) = some x := by
  induction evs with
  | nil => rfl
  | cons e rest ih =>
    cases e <;> simpa [proxyStep, firstSettle] using ih

/-- **C9.** Whichever of the two continuations fires first decides the
promise: if the spawned proxy reports an error before the ~200ms delay
elapses, the promise is rejected (`ProxySpawnFailed`); if the delay elapses
first, the promise resolves with the stored proxy process handle — and all
later events are discarded. -/
theorem c9_proxy_spawn_race (evs : List ProxyEvent) :
    ((ProxyEvent.spawnError :: evs).foldl proxyStep none = some .proxySpawnFailed)
    ∧ ((ProxyEvent.delayElapsed :: evs).foldl proxyStep none
        = some .resolvedStoredHandle) := by
  exact ⟨foldl_proxyStep_some _ evs, foldl_proxyStep_some _ evs⟩
